import Mathlib

/-!
Verification model of the OpsBrain multi-agent e-commerce operations
orchestrator.  Shallow embedding of the pending-action HITL service
(`src/app/services/hitl.py`), the action executor
(`src/app/services/action_executor.py`), the MCP transport client
(`src/opsbrain_graph/tools/mcp_client.py`), the sales agent
(`src/opsbrain_graph/agents/sales_agent.py`), the supervisor
(`src/opsbrain_graph/supervisor.py`) and the LangGraph workflow
(`src/opsbrain_graph/graph.py`).  External effects (database commits, the
MCP HTTP round-trip, the LLM, agent tool calls) are passed in as explicit
outcome parameters; everything else is translated directly from the
Python source.
-/

namespace OpsBrain

/-! ## JSON-ish payload values

Pending-action payloads and agent findings are Python dicts with string
keys.  We embed them as insertion-ordered association lists, which is how
CPython dicts behave for lookup, insertion and `pop`. -/

/-- A JSON-ish scalar/collection value stored in a payload or findings
dict.  Covers the value shapes the modelled code inspects: numbers,
strings, lists and nested dicts. -/
inductive FVal where
  | vnum (n : Int)
  | vstr (s : String)
  | vlist (l : List FVal)
  | vdict (d : List (String × FVal))
  deriving Repr

/-- A Python dict with string keys: insertion-ordered association list. -/
abbrev Payload := List (String × FVal)

/-- `d[k]` lookup (first binding wins; keys are unique by construction of
the operations below). -/
def dictGet (p : Payload) (k : String) : Option FVal :=
  match p with
  | [] => none
  | (k', v) :: rest => if k' = k then some v else dictGet rest k

/-- `k in d`. -/
def dictContains (p : Payload) (k : String) : Bool :=
  (dictGet p k).isSome

/-- `d[k] = v`: replaces the value in place when the key exists, appends
the binding otherwise (CPython dict insertion-order semantics). -/
def dictInsert (p : Payload) (k : String) (v : FVal) : Payload :=
  match p with
  | [] => [(k, v)]
  | (k', v') :: rest =>
      if k' = k then (k', v) :: rest else (k', v') :: dictInsert rest k v

/-- `d.pop(k)` (the removal part): drops the binding for `k`. -/
def dictErase (p : Payload) (k : String) : Payload :=
  match p with
  | [] => []
  | (k', v') :: rest =>
      if k' = k then rest else (k', v') :: dictErase rest k

/-! ## Action executor (`src/app/services/action_executor.py`) -/

/-- `ACTION_TYPE_TO_TOOL`: mapping from agent-proposed action types to MCP
tool names. -/
def ACTION_TYPE_TO_TOOL : List (String × String) :=
  [ ("execute_custom_sql", "execute_sql_query"),
    ("restock_item", "update_inventory"),
    ("update_inventory", "update_inventory"),
    ("adjust_stock", "update_inventory"),
    ("pause_campaign", "update_campaign_status"),
    ("resume_campaign", "update_campaign_status"),
    ("update_campaign_status", "update_campaign_status"),
    ("adjust_budget", "update_campaign_budget"),
    ("update_campaign_budget", "update_campaign_budget"),
    ("escalate_ticket", "escalate_ticket"),
    ("close_ticket", "close_ticket"),
    ("prioritize_ticket", "prioritize_ticket") ]

/-- `ACTION_TYPE_TO_TOOL.get(action_type)`. -/
def actionTypeToTool (actionType : String) : Option String :=
  (ACTION_TYPE_TO_TOOL.find? (fun kv => kv.1 = actionType)).map (·.2)

/-- `transform_payload`: normalizes an agent action payload to the MCP
tool payload format before invocation. -/
def transform_payload (actionType : String) (payload : Payload) : Payload :=
  -- transformed = payload.copy()
  let transformed := payload
  if actionType = "restock_item" then
    -- rename "quantity" -> "quantity_change" only when the target key is absent
    let transformed :=
      if dictContains transformed "quantity" &&
         !(dictContains transformed "quantity_change") then
        match dictGet transformed "quantity" with
        | some q => dictInsert (dictErase transformed "quantity") "quantity_change" q
        | none => transformed
      else transformed
    if !(dictContains transformed "reason") then
      dictInsert transformed "reason" (.vstr "Restock requested by agent")
    else transformed
  else if actionType = "pause_campaign" then
    let transformed := dictInsert transformed "status" (.vstr "paused")
    if !(dictContains transformed "reason") then
      dictInsert transformed "reason" (.vstr "Campaign paused by agent recommendation")
    else transformed
  else if actionType = "resume_campaign" then
    let transformed := dictInsert transformed "status" (.vstr "active")
    if !(dictContains transformed "reason") then
      dictInsert transformed "reason" (.vstr "Campaign resumed by agent recommendation")
    else transformed
  else transformed

/-- `ActionExecutionError`: carries the failing action type, a reason and
optional details. -/
structure ExecError where
  actionType : String
  reason : String
  details : Option String
  deriving Repr, DecidableEq

/-- `ActionExecutionError.__str__`:
`f"Failed to execute action '{action_type}': {reason}"`. -/
def ExecError.message (e : ExecError) : String :=
  "Failed to execute action '" ++ e.actionType ++ "': " ++ e.reason

/-- The dict `ActionExecutor.execute` returns on success:
`{"success": True, "tool": tool_name, "action_type": action_type, "result": result}`.
The raw MCP tool result is kept abstract as a string rendering. -/
structure ExecOk where
  tool : String
  actionType : String
  result : String
  deriving Repr, DecidableEq

/-! ## Pending-action rows and the HITL service (`src/app/services/hitl.py`)

`PendingActionStatus` in `src/db/models.py` is the four-valued enum
below.  The service operations are sequentialized: each runs under a
row-level lock (`with_for_update`), so a row's history is a sequence of
service calls. -/

/-- `PendingActionStatus`. -/
inductive Status where
  | pending
  | approved
  | rejected
  | executed
  deriving Repr, DecidableEq

/-- The `Literal["approved", "rejected"]` argument of
`PendingActionService.update_status`. -/
inductive Decision where
  | approve
  | reject
  deriving Repr, DecidableEq

/-- The status string the decision writes. -/
def Decision.toStatus : Decision → Status
  | .approve => .approved
  | .reject => .rejected

/-- The string value of a `PendingActionStatus` member. -/
def Status.str : Status → String
  | .pending => "pending"
  | .approved => "approved"
  | .rejected => "rejected"
  | .executed => "executed"

/-- A `pending_actions` row (timestamps elided; they carry no control
flow in the modelled operations). -/
structure Row where
  id : Int
  agent_name : String
  action_type : String
  payload : Payload
  reasoning : String
  status : Status
  deriving Repr

/-- Result payload of an `ExecuteActionResponse`: `None`, the executor's
success dict, or the structured `{"error": ..., "details": ...}` failure
dict. -/
inductive ExecRespResult where
  | ok (r : ExecOk)
  | err (error : String) (details : Option String)
  deriving Repr, DecidableEq

/-- `ExecuteActionResponse`. -/
structure ExecuteActionResponse where
  action_id : Int
  status : Status
  success : Bool
  message : String
  result : Option ExecRespResult
  deriving Repr

/-- `ApproveActionResponse`. -/
structure ApproveActionResponse where
  action_id : Int
  status : Status
  message : String
  deriving Repr

/-- Status a row is created with by
`PendingActionService.create_from_proposals`: `pending` when the proposal
requires approval, `approved` otherwise. -/
def createStatus (requiresApproval : Bool) : Status :=
  if requiresApproval then .pending else .approved

/-- `PendingActionService.update_status` on a row that was found: writes
the requested status unconditionally (there is no check of the current
status) and commits. -/
def updateStatus (row : Row) (d : Decision) (comment : Option String) :
    Row × ApproveActionResponse :=
  let row' := { row with status := d.toStatus }
  -- message = comment or f"Action {status} at {now.isoformat()}." (timestamp elided)
  let message := comment.getD ("Action " ++ d.toStatus.str ++ ".")
  (row', { action_id := row.id, status := d.toStatus, message := message })

/-- `PendingActionService.execute_action` on a row that was found.  The
executor's outcome (`ActionExecutor.execute` either returns a dict or
raises `ActionExecutionError`) is passed in as `exec?`.  Only `approved`
rows execute; a successful execution commits status `executed`; an
executor error leaves the row untouched and returns a structured failure
response. -/
def executeAction (row : Row) (exec? : Except ExecError ExecOk) :
    Row × ExecuteActionResponse :=
  if row.status ≠ Status.approved then
    (row,
     { action_id := row.id, status := row.status, success := false,
       message := "Cannot execute action with status '" ++ row.status.str ++
         "'. Only 'approved' actions can be executed.",
       result := none })
  else
    match exec? with
    | .ok r =>
        ({ row with status := .executed },
         { action_id := row.id, status := .executed, success := true,
           message := "Action executed successfully.",
           result := some (.ok r) })
    | .error e =>
        (row,
         { action_id := row.id, status := row.status, success := false,
           message := e.message,
           result := some (.err e.reason e.details) })

/-- `PendingActionService.approve_and_execute`: `update_status(id,
"approved")` followed by `execute_action(id)`; both calls commit, so the
intermediate `approved` status is observable in the store. -/
def approveAndExecute (row : Row) (comment : Option String)
    (exec? : Except ExecError ExecOk) : Row × ExecuteActionResponse :=
  let row1 := (updateStatus row .approve comment).1
  executeAction row1 exec?

/-! ### Status traces of a single row

The operations the spec quantifies over.  `create_from_proposals` fixes
the initial status; thereafter the row is touched only by
`update_status`, `execute_action` and `approve_and_execute` (each one a
single-writer critical section). -/

/-- One service operation applied to a row. -/
inductive HitlOp where
  | update (d : Decision) (comment : Option String)
  | execute (exec? : Except ExecError ExecOk)
  | approveExecute (comment : Option String) (exec? : Except ExecError ExecOk)

/-- The row after an operation. -/
def stepRow (row : Row) : HitlOp → Row
  | .update d c => (updateStatus row d c).1
  | .execute e => (executeAction row e).1
  | .approveExecute c e => (approveAndExecute row c e).1

/-- The statuses an operation commits to the store, in commit order
(`approve_and_execute` commits twice). -/
def opStatuses (row : Row) : HitlOp → List Status
  | .update d c => [(updateStatus row d c).1.status]
  | .execute e => [(executeAction row e).1.status]
  | .approveExecute c e =>
      let row1 := (updateStatus row .approve c).1
      [row1.status, (executeAction row1 e).1.status]

/-- Append a status to an observation history, skipping stutters (an
observer watching the row sees a status change only when the value
actually changes). -/
def recordStep (hist : List Status) (s : Status) : List Status :=
  match hist.getLast? with
  | some t => if t = s then hist else hist ++ [s]
  | none => [s]

/-- Fold a list of committed statuses into the observation history. -/
def observeList (hist : List Status) : List Status → List Status
  | [] => hist
  | s :: rest => observeList (recordStep hist s) rest

/-- Observation history of a row over a sequence of operations, starting
from the row's current status. -/
def runObserved (hist : List Status) (row : Row) : List HitlOp → List Status
  | [] => hist
  | op :: ops => runObserved (observeList hist (opStatuses row op)) (stepRow row op) ops

/-- The sequence of distinct statuses observable for a row across a
sequence of service operations. -/
def observedStatuses (row : Row) (ops : List HitlOp) : List Status :=
  runObserved [row.status] row ops

/-- The property claimed by the spec: the observed sequence is a prefix
of `[pending, approved, executed]` or of `[pending, rejected]`. -/
def isLifecyclePrefix (l : List Status) : Bool :=
  l.isPrefixOf [.pending, .approved, .executed] || l.isPrefixOf [.pending, .rejected]

/-- Usage discipline under which the lifecycle holds: `update_status`
(and its use inside `approve_and_execute`) is only ever applied to a row
that is still awaiting a decision.  The service itself does not enforce
this: `update_status` overwrites any current status. -/
def guardedFrom (row : Row) : List HitlOp → Bool
  | [] => true
  | op :: ops =>
      (match op with
       | .update _ _ => row.status == .pending
       | .execute _ => true
       | .approveExecute _ _ => row.status == .pending || row.status == .approved)
      && guardedFrom (stepRow row op) ops

/-- Invariant tying the observation history to the row's current status:
the history is a nonempty prefix of one of the two canonical lifecycles
and ends at the current status. -/
def LifeInv (hist : List Status) (s : Status) : Prop :=
  (hist = [.pending] ∧ s = .pending) ∨
  (hist = [.pending, .approved] ∧ s = .approved) ∨
  (hist = [.pending, .approved, .executed] ∧ s = .executed) ∨
  (hist = [.pending, .rejected] ∧ s = .rejected)

/-! ## MCP transport client (`src/opsbrain_graph/tools/mcp_client.py`)

`MCPClient.invoke` posts `{"tool": ..., "arguments": ...}` and inspects
the `httpx` response.  The HTTP round-trip is passed in as an explicit
outcome; a parsed JSON value is abstracted as an `FVal`. -/

/-- An HTTP response as the client observes it: the numeric status code,
the raw body text, and the outcome of `response.json()` (`none` when the
body is malformed JSON). -/
structure HttpResponse where
  status_code : Nat
  text : String
  jsonBody : Option FVal

/-- Outcome of the `httpx` POST: either a response or a raised transport
exception (connection failure, timeout, ...). -/
inductive TransportOutcome where
  | response (r : HttpResponse)
  | ioFault (msg : String)

/-- What `MCPClient.invoke` does for the caller: return parsed JSON,
raise `ToolInvocationError` (with tool name, status and body), raise
`MCPError`, or let the transport exception propagate uncaught. -/
inductive InvokeOutcome where
  | ok (v : FVal)
  | toolInvocationError (toolName : String) (status : Nat) (message : String)
  | mcpError (msg : String)
  | transportRaised (msg : String)
  deriving Repr

/-- `True` iff the outcome is a raised `ToolInvocationError`. -/
def InvokeOutcome.isToolInvocationError : InvokeOutcome → Bool
  | .toolInvocationError _ _ _ => true
  | _ => false

/-- `MCPClient.invoke`: raises `ToolInvocationError(tool, status, text)`
on `status_code >= 400`; otherwise attempts `response.json()` and raises
`MCPError` when it fails.  No `except` clause guards the POST itself, so
an `httpx` exception propagates unchanged. -/
def MCPClient.invoke (toolName : String) (t : TransportOutcome) : InvokeOutcome :=
  match t with
  | .ioFault m => .transportRaised m
  | .response r =>
      if r.status_code ≥ 400 then
        .toolInvocationError toolName r.status_code r.text
      else
        match r.jsonBody with
        | some v => .ok v
        | none => .mcpError ("Invalid JSON response from MCP tool " ++ toolName)

/-! ## String helpers mirroring Python primitives -/

/-- Python `str.lower()` (ASCII view; the modelled patterns are ASCII). -/
def strToLower (s : String) : String := String.mk (s.toList.map Char.toLower)

/-- Python `pat in s` substring test. -/
def strContains (s pat : String) : Bool := decide (pat.toList <:+: s.toList)

/-! ## Agent framework (`src/opsbrain_graph/agents/base_agent.py`)

`AgentStatus = Literal["success", "failure", "needs_retry"]` is a typing
annotation; at runtime statuses are plain strings, so we model the
status field as `String`. -/

/-- `AgentRecommendation`. -/
structure Recommendation where
  action_type : String
  payload : Payload
  reasoning : String
  requires_approval : Bool
  deriving Repr

/-- `AgentResult`. -/
structure AgentResultS where
  status : String
  findings : Payload
  insights : List String
  recommendations : List Recommendation
  errors : Option String
  deriving Repr

/-- The values admitted by the `AgentStatus` literal type. -/
def agentStatusValues : List String := ["success", "failure", "needs_retry"]

/-- `BaseAgent.success`. -/
def BaseAgent.success (findings : Payload) (insights : List String)
    (recommendations : List Recommendation) : AgentResultS :=
  { status := "success", findings := findings, insights := insights,
    recommendations := recommendations, errors := none }

/-- `BaseAgent.failure`: status `needs_retry` when requested, `failure`
otherwise. -/
def BaseAgent.failure (message : String) (needsRetry : Bool) : AgentResultS :=
  { status := if needsRetry then "needs_retry" else "failure",
    findings := [], insights := [], recommendations := [], errors := some message }

/-! ## Sales agent (`src/opsbrain_graph/agents/sales_agent.py`)

Each mode makes exactly one tool call; its outcome is passed in
explicitly.  Tool response rows are abstracted as `FVal`s; the derived
statistics and formatted insight strings computed from them do not
affect the result status and are reduced to representative values. -/

/-- Outcome of the single tool call a sales-agent mode makes: data rows
on success, or a raised exception message. -/
inductive ToolOutcome where
  | ok (rows : List FVal)
  | raise (msg : String)

/-- `params.get(key, default)` for an integer parameter. -/
def paramInt (params : Payload) (k : String) (dflt : Int) : Int :=
  match dictGet params k with
  | some (.vnum n) => n
  | _ => dflt

/-- `SalesAgent._run_top_products`. -/
def SalesAgent.runTopProducts (params : Payload) (tool : ToolOutcome) : AgentResultS :=
  let windowDays := paramInt params "window_days" 7
  let limit := paramInt params "limit" 5
  match tool with
  | .raise m => BaseAgent.failure m false
  | .ok products =>
      BaseAgent.success
        [("top_products", .vlist products), ("window_days", .vnum windowDays),
         ("limit", .vnum limit)]
        (if products.isEmpty then
          ["No product sales data found for the specified period."]
         else
          ["Top selling products in the specified window.",
           "Total revenue from top products."])
        []

/-- `SalesAgent._run_trends` (the default mode). -/
def SalesAgent.runTrends (params : Payload) (tool : ToolOutcome) : AgentResultS :=
  let windowDays := paramInt params "window_days" 7
  match tool with
  | .raise m => BaseAgent.failure m false
  | .ok rows =>
      BaseAgent.success
        [("sales_by_period", .vlist rows), ("window_days", .vnum windowDays)]
        (if rows.isEmpty then
          ["No sales data found for the specified period."]
         else
          ["Revenue for the latest period vs the previous period."])
        []

/-- `SalesAgent._run_compare_periods`. -/
def SalesAgent.runComparePeriods (params : Payload) (tool : ToolOutcome) : AgentResultS :=
  let currentDays := paramInt params "current_days" 1
  let previousDays := paramInt params "previous_days" 7
  match tool with
  | .raise m => BaseAgent.failure m false
  | .ok _ =>
      BaseAgent.success
        [("current_period", .vdict [("days", .vnum currentDays)]),
         ("previous_period", .vdict [("days", .vnum previousDays)]),
         ("changes", .vdict []), ("trend", .vstr "stable")]
        ["Comparing the current period to the previous period.",
         "Revenue change and order change percentages."]
        []

/-- `SalesAgent._run_regional`. -/
def SalesAgent.runRegional (params : Payload) (tool : ToolOutcome) : AgentResultS :=
  let windowDays := paramInt params "window_days" 7
  match tool with
  | .raise m => BaseAgent.failure m false
  | .ok regions =>
      BaseAgent.success
        [("window_days", .vnum windowDays), ("regions", .vlist regions)]
        ["Regional sales analysis for the window."]
        []

/-- `SalesAgent._run_channel`. -/
def SalesAgent.runChannel (params : Payload) (tool : ToolOutcome) : AgentResultS :=
  let windowDays := paramInt params "window_days" 7
  match tool with
  | .raise m => BaseAgent.failure m false
  | .ok channels =>
      BaseAgent.success
        [("window_days", .vnum windowDays), ("channels", .vlist channels)]
        ["Channel performance for the window."]
        []

/-- `SalesAgent._run_product_contribution`. -/
def SalesAgent.runProductContribution (params : Payload) (tool : ToolOutcome) : AgentResultS :=
  let currentDays := paramInt params "current_days" 1
  let previousDays := paramInt params "previous_days" 7
  match tool with
  | .raise m => BaseAgent.failure m false
  | .ok products =>
      BaseAgent.success
        [("current_days", .vnum currentDays), ("previous_days", .vnum previousDays),
         ("products", .vlist products)]
        ["Product revenue contribution between the two periods."]
        []

/-- The mode dispatch key: `params.get("mode", "trends")` (a non-string
mode value falls through every comparison, i.e. to "trends"). -/
def salesMode (params : Payload) : String :=
  match dictGet params "mode" with
  | some (.vstr m) => m
  | _ => "trends"

/-- `SalesAgent.run`: dispatches on the mode.  Every branch invokes a
tool and answers the query itself; there is no pattern check against the
query text and no `cannot_handle` branch.  The second component records
which tool endpoint the chosen mode invokes. -/
def SalesAgent.run (params : Payload) (tool : ToolOutcome) : AgentResultS × String :=
  if salesMode params = "top_products" then
    (SalesAgent.runTopProducts params tool, "get_top_products")
  else if salesMode params = "compare_periods" then
    (SalesAgent.runComparePeriods params tool, "compare_sales_periods")
  else if salesMode params = "regional" then
    (SalesAgent.runRegional params tool, "get_regional_sales")
  else if salesMode params = "channel" then
    (SalesAgent.runChannel params tool, "get_channel_performance")
  else if salesMode params = "product_contribution" then
    (SalesAgent.runProductContribution params tool, "get_product_contribution")
  else (SalesAgent.runTrends params tool, "execute_sql_query")

/-- Modelled from the spec: the sales agent's `cannot_handle` trigger
patterns ("compare", period-comparison vocabulary, "region", "channel",
"contribution") applied to the lowercased verbatim user query.  No such
pattern list exists anywhere in the source tree. -/
def salesCannotHandleTriggers : List String :=
  ["compare", "region", "channel", "contribution"]

/-- Modelled from the spec: whether a query matches a sales
`cannot_handle` trigger. -/
def salesTriggerMatch (query : String) : Bool :=
  salesCannotHandleTriggers.any (fun p => strContains (strToLower query) p)

/-! ## Graph state (`src/opsbrain_graph/state.py`, extended by the nodes
in `src/opsbrain_graph/graph.py` and `src/opsbrain_graph/supervisor.py`)

Python's `TypedDict` entries that nodes read with `state.get(key,
default)` are modelled as always-present fields holding the default. -/

/-- Generic lookup in an insertion-ordered string-keyed map. -/
def alistGet {α : Type} (l : List (String × α)) (k : String) : Option α :=
  match l with
  | [] => none
  | (k', v) :: rest => if k' = k then some v else alistGet rest k

/-- Generic insert-or-replace in an insertion-ordered string-keyed map. -/
def alistInsert {α : Type} (l : List (String × α)) (k : String) (v : α) :
    List (String × α) :=
  match l with
  | [] => [(k, v)]
  | (k', v') :: rest =>
      if k' = k then (k', v) :: rest else (k', v') :: alistInsert rest k v

/-- An `AgentTask`. -/
structure AgentTaskT where
  agent : String
  objective : String
  parameters : Payload
  result_slot : Option String
  deriving Repr

/-- An entry of `state["cannot_handle_agents"]`. -/
structure CannotHandleEntry where
  agent : String
  query : FVal
  reason : FVal
  deriving Repr

/-- `DiagnosisSummary`.  Real-valued confidence is modelled over `ℚ`. -/
structure DiagnosisSummary where
  narrative : String
  key_findings : List String
  confidence : ℚ
  deriving Repr

/-- `PendingActionProposal`. -/
structure PendingActionProposal where
  agent_name : String
  action_type : String
  payload : Payload
  reasoning : String
  requires_approval : Bool
  deriving Repr

/-- `GraphState`. -/
structure GState where
  user_query : String
  battle_plan : List AgentTaskT
  agent_findings : List (String × Payload)
  agent_insights : List (String × List String)
  recommendations : List Recommendation
  cannot_handle_agents : List CannotHandleEntry
  memory_context : List FVal
  system_warnings : List String
  diagnosis : Option DiagnosisSummary
  pending_action_proposals : List PendingActionProposal
  hitl_wait : Bool
  hitl_pending_ids : List Int
  hitl_approved_ids : List Int
  hitl_rejected_ids : List Int
  hitl_resumed : Bool
  replan_count : Nat
  max_replans : Nat
  needs_replan : Bool
  replan_reason : Option String
  route_to_analyst : Bool
  thread_id : String
  deriving Repr

/-- `Supervisor.initialize_state` plus the `thread_id`/`hitl_resumed`
initialisation done by `OperationsGraph.run`. -/
def initializeState (query : String) (threadId : String) : GState :=
  { user_query := query, battle_plan := [], agent_findings := [],
    agent_insights := [], recommendations := [], cannot_handle_agents := [],
    memory_context := [], system_warnings := [], diagnosis := none,
    pending_action_proposals := [], hitl_wait := false, hitl_pending_ids := [],
    hitl_approved_ids := [], hitl_rejected_ids := [], hitl_resumed := false,
    replan_count := 0, max_replans := 2, needs_replan := false,
    replan_reason := none, route_to_analyst := false, thread_id := threadId }

/-! ## Result fold-in (`Supervisor.incorporate_agent_result`) -/

/-- `Supervisor.incorporate_agent_result`. -/
def incorporateAgentResult (s : GState) (agentName : String) (r : AgentResultS) :
    GState :=
  if r.status = "success" then
    { s with
        agent_findings := alistInsert s.agent_findings agentName r.findings,
        agent_insights := alistInsert s.agent_insights agentName r.insights,
        recommendations := s.recommendations ++ r.recommendations }
  else if r.status = "cannot_handle" then
    { s with
        cannot_handle_agents := s.cannot_handle_agents ++
          [{ agent := agentName,
             query := (dictGet r.findings "query").getD (.vstr s.user_query),
             reason := (dictGet r.findings "reason").getD
               (.vstr "Requires complex analysis") }],
        agent_insights := alistInsert s.agent_insights agentName r.insights }
  else
    { s with
        system_warnings := s.system_warnings ++
          [agentName ++ " agent failed: " ++
            (match r.errors with | some e => e | none => "None")] }

/-! ## Dispatcher (`OperationsGraph._run_tasks_node`)

Each agent's behaviour for this dispatch cycle — the outcome of the
single `agent.run(task, context)` call `run_agent_safe` makes — is
passed in as a function of the task. -/

/-- Outcome of one `agent.run` call: a returned result or a raised
exception. -/
inductive RunOutcome where
  | result (r : AgentResultS)
  | raised (msg : String)

/-- `run_agent_safe`: returns `(agent, result, None)` on success and
`(agent, None, str(exc))` when the agent raised. -/
def runAgentSafe (t : AgentTaskT) (o : RunOutcome) :
    String × Option AgentResultS × Option String :=
  match o with
  | .result r => (t.agent, some r, none)
  | .raised m => (t.agent, none, some m)

/-- The fold over gathered results at the end of `_run_tasks_node`. -/
def foldResults (s : GState) :
    List (String × Option AgentResultS × Option String) → GState
  | [] => s
  | (name, some r, _) :: rest => foldResults (incorporateAgentResult s name r) rest
  | (name, none, some e) :: rest =>
      foldResults
        { s with system_warnings := s.system_warnings ++
            ["Agent " ++ name ++ " crashed: " ++ e] } rest
  | (_, none, none) :: rest => foldResults s rest

/-- `_run_tasks_node`: filters the battle plan to registered agents, runs
each remaining task's agent exactly once (no retry loop, no sleep) and
folds the results into state.  The second component is the list of
`agent.run` invocations made, one entry per valid task. -/
def runTasksNode (registry : List String) (behave : AgentTaskT → RunOutcome)
    (s : GState) : GState × List String :=
  let validTasks := s.battle_plan.filter (fun t => registry.contains t.agent)
  let invocations := validTasks.map (fun t => t.agent)
  let results := validTasks.map (fun t => runAgentSafe t (behave t))
  (foldResults s results, invocations)

/-! ## Evaluator (`Supervisor.evaluate_results`) -/

/-- `Supervisor._is_empty_result` on a single findings value: non-empty
list/dict, non-zero number or non-blank string defeats emptiness. -/
def FVal.nonEmptyVal : FVal → Bool
  | .vlist l => !l.isEmpty
  | .vdict d => !d.isEmpty
  | .vnum n => n != 0
  | .vstr s => s.trim != ""

/-- `Supervisor._is_empty_result`. -/
def isEmptyResult (findings : Payload) : Bool :=
  findings.all (fun kv => !(FVal.nonEmptyVal kv.2))

/-- The `failed_agents` scan in `evaluate_results`: a battle-plan agent
is failed when some system warning mentions it and contains "failed". -/
def evalAgentFailed (warnings : List String) (agent : String) : Bool :=
  warnings.any (fun w => strContains w agent && strContains (strToLower w) "failed")

/-- `Supervisor.evaluate_results` (state effect; the returned Boolean is
redundant with `needs_replan`). -/
def evaluateResults (s : GState) : GState :=
  if s.replan_count ≥ s.max_replans then
    { s with needs_replan := false }
  else if !s.cannot_handle_agents.isEmpty then
    if (alistGet s.agent_findings "data_analyst").isSome then
      { s with needs_replan := false }
    else
      { s with needs_replan := true,
               replan_reason :=
                 some "Agents cannot handle query, routing to data_analyst",
               route_to_analyst := true }
  else if s.agent_findings.isEmpty then
    { s with needs_replan := true,
             replan_reason := some "No agents returned findings" }
  else if (match s.battle_plan with
           | [] => false
           | t :: _ => evalAgentFailed s.system_warnings t.agent) then
    { s with needs_replan := true,
             replan_reason := some "Primary agent failed" }
  else if s.agent_findings.all (fun kv => isEmptyResult kv.2) then
    -- `empty_findings and len(empty_findings) == len(agent_findings)`:
    -- with findings non-empty this is exactly "all findings empty"
    { s with needs_replan := true,
             replan_reason := some "All agents returned empty results" }
  else
    { s with needs_replan := false, replan_reason := none }

/-! ## Re-planner (`Supervisor.replan` and `OperationsGraph._replan_node`)

The LLM round-trip of the generic path is an external input: `none`
models a raised LLM call or an unparseable plan, `some tasks` the parsed
task list. -/

/-- The single data-analyst task of the `route_to_analyst` path. -/
def analystTask (userQuery : String) : AgentTaskT :=
  { agent := "data_analyst",
    objective := "Generate custom SQL to answer: " ++ userQuery,
    parameters := [("mode", .vstr "analyze"), ("query", .vstr userQuery)],
    result_slot := some "agent_findings.data_analyst" }

/-- The `failed_agents` scan in `replan`: registered agent names that
appear in some lowercased warning. -/
def replanFailedAgents (metadataNames : List String) (warnings : List String) :
    List String :=
  metadataNames.filter (fun name =>
    warnings.any (fun w => strContains (strToLower w) name))

/-- `Supervisor.replan`: increments `replan_count`, then either emits the
analyst task (`route_to_analyst` path), keeps the filtered LLM plan, or
falls back to a last-resort data-analyst task / synthesis. -/
def supervisorReplan (metadataNames : List String) (s : GState)
    (llmTasks : Option (List AgentTaskT)) : GState × List AgentTaskT :=
  let s := { s with replan_count := s.replan_count + 1 }
  if s.route_to_analyst then
    let task := analystTask s.user_query
    ({ s with battle_plan := [task], route_to_analyst := false }, [task])
  else
    let failedAgents := replanFailedAgents metadataNames s.system_warnings
    let fallback : GState × List AgentTaskT :=
      if !failedAgents.isEmpty && !(failedAgents.contains "data_analyst") then
        let fb : AgentTaskT :=
          { agent := "data_analyst",
            objective := "Analyze data to answer: " ++ s.user_query,
            parameters := [("statement", .vstr "SELECT 1")],
            result_slot := some "agent_findings.data_analyst" }
        ({ s with battle_plan := [fb] }, [fb])
      else
        ({ s with needs_replan := false }, [])
    match llmTasks with
    | none => fallback
    | some parsed =>
        let tasks := parsed.filter (fun t =>
          !(alistGet s.agent_findings t.agent).isSome ||
            failedAgents.contains t.agent)
        if !tasks.isEmpty then ({ s with battle_plan := tasks }, tasks)
        else fallback

/-- `OperationsGraph._replan_node`: installs the new plan, or clears
`needs_replan` when re-planning produced nothing. -/
def graphReplanNode (metadataNames : List String) (s : GState)
    (llmTasks : Option (List AgentTaskT)) : GState :=
  let paired := supervisorReplan metadataNames s llmTasks
  if !paired.2.isEmpty then { paired.1 with battle_plan := paired.2 }
  else { paired.1 with needs_replan := false }

/-! ## Synthesizer (`Supervisor.synthesize`) -/

/-- `Supervisor._fallback_synthesis` (deterministic bullet summary used
when the LLM call raises). -/
def fallbackSynthesis (agentInsights : List (String × List String))
    (warnings : List String) : String :=
  let insightLines :=
    if agentInsights.isEmpty then ["Investigation completed; awaiting more signals."]
    else "Based on the analysis:" ::
      agentInsights.flatMap (fun kv => kv.2.map (fun i => "- " ++ i))
  let warningLines :=
    if warnings.isEmpty then []
    else "Warnings encountered:" :: warnings.map (fun w => "! " ++ w)
  String.intercalate "\n" (insightLines ++ warningLines)

/-- The `all_insights` flattening in `synthesize`: every agent's insights
prefixed with the agent name. -/
def flattenInsights (agentInsights : List (String × List String)) : List String :=
  agentInsights.flatMap (fun kv => kv.2.map (fun i => kv.1 ++ ": " ++ i))

/-- `Supervisor._collect_pending_actions`: approval-requiring
recommendations become proposals; the proposal's agent name is the first
`_`-segment of the action type, or "system". -/
def collectPendingActions (recommendations : List Recommendation) :
    List PendingActionProposal :=
  (recommendations.filter (fun r => r.requires_approval)).map (fun rec =>
    { agent_name :=
        if strContains rec.action_type "_" then
          ((rec.action_type.splitOn "_").headD "system")
        else "system",
      action_type := rec.action_type, payload := rec.payload,
      reasoning := rec.reasoning, requires_approval := rec.requires_approval })

/-- `Supervisor.synthesize` composed with `_synthesize_node`: builds the
answer (LLM, or deterministic fallback), the diagnosis with
`confidence = min(0.95, 0.5 + 0.1 * len(all_insights))`, and the pending
action proposals (together with `hitl_wait`). -/
def synthesizeNode (s : GState) (llmAnswer : Option String) : GState :=
  let answer :=
    match llmAnswer with
    | some a => a
    | none => fallbackSynthesis s.agent_insights s.system_warnings
  let allInsights := flattenInsights s.agent_insights
  let summary : DiagnosisSummary :=
    { narrative := answer, key_findings := allInsights,
      confidence := min (0.95 : ℚ) (0.5 + 0.1 * (allInsights.length : ℚ)) }
  let proposals := collectPendingActions s.recommendations
  { s with diagnosis := some summary,
           pending_action_proposals := proposals,
           hitl_wait := !proposals.isEmpty }

/-! ## HITL gate, approved-action node and memory recording
(`OperationsGraph._hitl_gate_node`, `_route_after_hitl`,
`_execute_approved_node`, `_record_memory_node`) -/

/-- `_hitl_gate_node`: sets `hitl_wait` from the approval-requiring
proposals and resets `hitl_pending_ids` (the approved/rejected id lists
are re-read with their current or default values). -/
def hitlGateNode (s : GState) : GState :=
  let requiringApproval := s.pending_action_proposals.filter (fun p => p.requires_approval)
  { s with hitl_wait := !requiringApproval.isEmpty, hitl_pending_ids := [] }

/-- The three outcomes of `_route_after_hitl`. -/
inductive HitlRoute where
  | wait
  | execute
  | skip
  deriving Repr, DecidableEq

/-- `_route_after_hitl`. -/
def routeAfterHitl (s : GState) : HitlRoute :=
  if s.hitl_resumed && !s.hitl_approved_ids.isEmpty then .execute
  else if s.hitl_wait then .wait
  else .skip

/-- `_execute_approved_node`.  The loop appends each approved id to a
local `executed` list and logs it; per the source comment ("Actual
execution is done via /actions/execute endpoint") no call into
`ActionExecutor` — nor any other executor call — occurs anywhere in the
graph, so the third component, the ids on which an action executor is
invoked by this node, is always empty. -/
def executeApprovedNode (s : GState) : GState × List Int × List Int :=
  let approvedIds := s.hitl_approved_ids
  if approvedIds.isEmpty then (s, [], [])
  else
    let executed := approvedIds
    let executorInvocations : List Int := []
    ({ s with hitl_approved_ids := [], hitl_resumed := false },
     executed, executorInvocations)

/-- `MemoryIncident` (`src/opsbrain_graph/memory.py`). -/
structure MemoryIncident where
  incident_summary : String
  root_cause : Option String
  action_taken : Option String
  outcome : Option String
  deriving Repr, DecidableEq

/-- `_record_memory_node`: when a diagnosis with confidence above `0.7`
exists, one incident is handed to `MemoryService.save_incident`; the save
outcome is an external input and a failure is swallowed (logged as a
warning), so the node returns the state unchanged in every case.  The
second component lists the incidents passed to `save_incident`. -/
def recordMemoryNode (s : GState) (saveOutcome : Except String Int) :
    GState × List MemoryIncident :=
  match s.diagnosis with
  | some diagnosis =>
      if diagnosis.confidence > (0.7 : ℚ) then
        let incident : MemoryIncident :=
          { incident_summary := s.user_query,
            root_cause :=
              if diagnosis.narrative ≠ "" then some (diagnosis.narrative.take 500)
              else none,
            action_taken := none,
            outcome := none }
        match saveOutcome with
        | .ok _ => (s, [incident])
        | .error _ => (s, [incident])
      else (s, [])
  | none => (s, [])

/-! ## Resume pipeline (`OperationsGraph.resume`,
`OrchestratorService.resume_query`, `routers/query.py resume_query`)

`OperationsGraph.resume` loads the checkpoint, overwrites the HITL
fields and re-invokes the graph.  None of the graph nodes calls the
action executor (the only `ActionExecutor` construction in the tree is
inside `PendingActionService`, reachable only from the `/actions/*`
endpoints), so the replayed planning/dispatch/synthesis prefix is
summarised by entering at the HITL gate; the second component of
`resumeFromGate` is the list of action ids on which the engine invokes
an executor during resume. -/

/-- The state overwrite `OperationsGraph.resume` performs before
re-invoking the graph.  `none` id lists model the Python `None`
defaults (`approved_action_ids or []`). -/
def graphResumeState (checkpoint : GState) (approvedIds rejectedIds : Option (List Int)) :
    GState :=
  { checkpoint with
      hitl_approved_ids := approvedIds.getD [],
      hitl_rejected_ids := rejectedIds.getD [],
      hitl_resumed := true,
      hitl_wait := false }

/-- The tail of a resumed run: HITL gate, routing, the approved-action
node when routed there, then memory recording. -/
def resumeFromGate (st : GState) (saveOutcome : Except String Int) :
    GState × List Int :=
  let st := hitlGateNode st
  match routeAfterHitl st with
  | .wait => (st, [])
  | .execute =>
      let stepped := executeApprovedNode st
      ((recordMemoryNode stepped.1 saveOutcome).1, stepped.2.2)
  | .skip => ((recordMemoryNode st saveOutcome).1, [])

/-- `ResumeQueryRequest` (`src/app/schemas/query.py`). -/
structure ResumeQueryRequest where
  thread_id : String
  approved_action_ids : List Int
  rejected_action_ids : List Int
  deriving Repr

/-- The value that ends up in the `thread_id` parameter of
`OrchestratorService.resume_query`: a string, or — through the router
bug modelled below — the whole request object. -/
inductive ThreadKey where
  | tid (t : String)
  | requestObject (r : ResumeQueryRequest)

/-- The `MemorySaver` checkpoint store, keyed by the string thread ids
that `OperationsGraph.run` stores under. -/
abbrev CheckpointStore := List (String × GState)

/-- Outcome of the `MemorySaver` lookup `self._checkpointer.get(config)`:
a stored checkpoint, a miss, or a raised `TypeError` — its storage is a
Python dict, and indexing it requires hashing the `thread_id` key. -/
inductive CheckpointLookup where
  | found (st : GState)
  | missing
  | typeError (msg : String)

/-- Checkpoint lookup.  A string thread id hashes and is looked up; the
request object is a non-frozen pydantic model, which defines `__eq__`
and therefore has `__hash__ = None`, so indexing the storage dict with
it raises `TypeError` before any not-found check runs. -/
def checkpointGet (store : CheckpointStore) : ThreadKey → CheckpointLookup
  | .tid t =>
      match alistGet store t with
      | some st => .found st
      | none => .missing
  | .requestObject _ => .typeError "unhashable type: ResumeQueryRequest"

/-- The exception `OperationsGraph.resume` lets escape: the `ValueError`
it raises itself on a missing checkpoint (router-mapped to HTTP 404), or
the `TypeError` propagating out of the checkpoint lookup (caught only by
the router's generic handler, mapped to HTTP 500). -/
inductive ResumeError where
  | valueError (msg : String)
  | typeError (msg : String)
  deriving Repr, DecidableEq

/-- `OperationsGraph.resume`: the checkpoint lookup's `TypeError`
propagates uncaught; a miss raises `ValueError` (surfaced as HTTP 404);
otherwise the run resumes. -/
def graphResume (lookup : CheckpointLookup)
    (approvedIds rejectedIds : Option (List Int))
    (saveOutcome : Except String Int) : Except ResumeError (GState × List Int) :=
  match lookup with
  | .typeError m => .error (.typeError m)
  | .missing => .error (.valueError "No checkpoint found for thread_id")
  | .found cp =>
      .ok (resumeFromGate (graphResumeState cp approvedIds rejectedIds) saveOutcome)

/-- `OrchestratorService.resume_query`: delegates to
`OperationsGraph.resume` with whatever landed in its parameters, catching
nothing. -/
def orchestratorResumeQuery (store : CheckpointStore) (threadId : ThreadKey)
    (approvedIds rejectedIds : Option (List Int))
    (saveOutcome : Except String Int) : Except ResumeError (GState × List Int) :=
  graphResume (checkpointGet store threadId) approvedIds rejectedIds saveOutcome

/-- The HTTP outcomes of `POST /query/resume`: success, the 404 the
router raises from `except ValueError`, or the 500 its generic
`except Exception` handler produces (`"Resume failure: ..."`). -/
inductive RouterResumeResponse where
  | ok (result : GState × List Int)
  | http404 (detail : String)
  | http500 (detail : String)
  deriving Repr

/-- `routers/query.py resume_query`: the source calls
`orchestrator.resume_query(payload)` with the request object as the only
positional argument, so the request lands in the `thread_id` parameter
and both id lists keep their default `None`; a `ValueError` becomes 404
and any other exception becomes the 500 `"Resume failure"` response. -/
def routerResumeQuery (store : CheckpointStore) (req : ResumeQueryRequest)
    (saveOutcome : Except String Int) : RouterResumeResponse :=
  match orchestratorResumeQuery store (.requestObject req) none none saveOutcome with
  | .ok r => .ok r
  | .error (.valueError m) => .http404 m
  | .error (.typeError m) => .http500 ("Resume failure: " ++ m)

/-! ## The workflow as a step relation (`OperationsGraph._build_graph`)

One configuration per graph node; external inputs (the planner LLM, the
agent behaviours, the synthesis LLM, the memory save outcome) are
quantified in the steps.  `plan` only writes `battle_plan`
(`_plan_node`), so its outcome is an arbitrary task list. -/

/-- The graph nodes. -/
inductive Node where
  | plan
  | runTasks
  | evaluate
  | replan
  | synthesize
  | hitlGate
  | executeApproved
  | recordMemory
  | done
  deriving Repr, DecidableEq

/-- A configuration: current node plus state. -/
structure Config where
  node : Node
  state : GState

/-- The edges of the compiled graph, with each node's state effect. -/
inductive GStep : Config → Config → Prop where
  | planStep (s : GState) (tasks : List AgentTaskT) :
      GStep ⟨.plan, s⟩ ⟨.runTasks, { s with battle_plan := tasks }⟩
  | runTasksStep (registry : List String) (behave : AgentTaskT → RunOutcome)
      (s : GState) :
      GStep ⟨.runTasks, s⟩ ⟨.evaluate, (runTasksNode registry behave s).1⟩
  | evalReplan (s : GState) (h : (evaluateResults s).needs_replan = true) :
      GStep ⟨.evaluate, s⟩ ⟨.replan, evaluateResults s⟩
  | evalSynth (s : GState) (h : (evaluateResults s).needs_replan = false) :
      GStep ⟨.evaluate, s⟩ ⟨.synthesize, evaluateResults s⟩
  | replanStep (metadataNames : List String) (s : GState)
      (llmTasks : Option (List AgentTaskT)) :
      GStep ⟨.replan, s⟩ ⟨.runTasks, graphReplanNode metadataNames s llmTasks⟩
  | synthStep (s : GState) (llmAnswer : Option String) :
      GStep ⟨.synthesize, s⟩ ⟨.hitlGate, synthesizeNode s llmAnswer⟩
  | hitlWait (s : GState) (h : routeAfterHitl (hitlGateNode s) = .wait) :
      GStep ⟨.hitlGate, s⟩ ⟨.done, hitlGateNode s⟩
  | hitlExecute (s : GState) (h : routeAfterHitl (hitlGateNode s) = .execute) :
      GStep ⟨.hitlGate, s⟩ ⟨.executeApproved, hitlGateNode s⟩
  | hitlSkip (s : GState) (h : routeAfterHitl (hitlGateNode s) = .skip) :
      GStep ⟨.hitlGate, s⟩ ⟨.recordMemory, hitlGateNode s⟩
  | executeStep (s : GState) :
      GStep ⟨.executeApproved, s⟩ ⟨.recordMemory, (executeApprovedNode s).1⟩
  | recordStepG (s : GState) (saveOutcome : Except String Int) :
      GStep ⟨.recordMemory, s⟩ ⟨.done, (recordMemoryNode s saveOutcome).1⟩

/-- Configurations reachable in a run started by `OperationsGraph.run`. -/
inductive ReachableCfg : Config → Prop where
  | init (q threadId : String) : ReachableCfg ⟨.plan, initializeState q threadId⟩
  | step {c c' : Config} : ReachableCfg c → GStep c c' → ReachableCfg c'

/-! ## Concrete sample data used by the closed theorems -/

/-- A restock proposal requiring approval. -/
def restockProposal : PendingActionProposal :=
  { agent_name := "restock", action_type := "restock_item",
    payload := [("product_id", .vnum 3), ("quantity", .vnum 20)],
    reasoning := "Stock below threshold", requires_approval := true }

/-- The checkpointed state of a run paused at the HITL gate. -/
def pausedCheckpoint : GState :=
  { initializeState "Which products need restocking?" "thread-c2" with
      pending_action_proposals := [restockProposal],
      hitl_wait := true }

/-- The pending-action store row for the proposal, already approved by
the operator through the HTTP approval endpoint. -/
def approvedStoreRow : Row :=
  { id := 1, agent_name := "restock", action_type := "restock_item",
    payload := [("product_id", .vnum 3), ("quantity", .vnum 20)],
    reasoning := "Stock below threshold", status := .approved }

/-- The stored status of a pending action, as the claim consults it. -/
def storedStatusOf (rows : List Row) (i : Int) : Option Status :=
  (rows.find? (fun r => r.id == i)).map (fun r => r.status)

/-- The executions the claim says a resume must attempt: the approved
ids whose stored status is `approved`. -/
def claimedExecutions (rows : List Row) (approvedIds : List Int) : List Int :=
  approvedIds.filter (fun i => decide (storedStatusOf rows i = some Status.approved))

/-- A high-confidence diagnosis. -/
def confidentDiagnosis : DiagnosisSummary :=
  { narrative := "Revenue fell because the Home category went out of stock.",
    key_findings := ["sales: Revenue down 20 percent"], confidence := 0.8 }

/-- A completed run carrying it. -/
def confidentRunState : GState :=
  { initializeState "Why did sales drop yesterday?" "thread-c8" with
      diagnosis := some confidentDiagnosis }


/-- A 200 response whose body is not JSON. -/
def malformedResponse : HttpResponse :=
  { status_code := 200, text := "<html>oops</html>", jsonBody := none }

/-- A 401 response. -/
def unauthorizedResponse : HttpResponse :=
  { status_code := 401, text := "unauthorized", jsonBody := none }

/-- A query matching the spec's "compare" trigger for the sales agent. -/
def compareQuery : String := "Compare yesterday sales to last week"

/-- Task parameters the planner would emit for that query. -/
def compareTaskParams : Payload :=
  [("mode", .vstr "compare_periods"), ("query", .vstr compareQuery)]

/-- A sales trends task. -/
def trendsTask : AgentTaskT :=
  { agent := "sales", objective := "Analyze revenue trends.",
    parameters := [("mode", .vstr "trends")],
    result_slot := some "agent_findings.sales" }

/-- The registered agent names. -/
def dispatcherRegistry : List String :=
  ["sales", "inventory", "marketing", "support", "data_analyst", "historian"]

/-- An agent behaviour whose first (and only) attempt reports
`needs_retry`. -/
def needsRetryBehaviour : AgentTaskT → RunOutcome :=
  fun _ => .result (BaseAgent.failure "transient tool error" true)

/-- A run about to dispatch the trends task. -/
def dispatchState : GState :=
  { initializeState "How are sales trending this week?" "thread-c4" with
      battle_plan := [trendsTask] }


/-- A restock payload that already carries both `quantity` and
`quantity_change`. -/
def doubleQuantityPayload : Payload :=
  [("product_id", .vnum 3), ("quantity", .vnum 5), ("quantity_change", .vnum 2)]

/-- A typical restock payload. -/
def renamePayload : Payload := [("product_id", .vnum 4), ("quantity", .vnum 9)]


/-- A freshly created restock pending action (requires approval). -/
def sampleRestockRow : Row :=
  { id := 1, agent_name := "inventory", action_type := "restock_item",
    payload := [("product_id", .vnum 3), ("quantity", .vnum 20)],
    reasoning := "Stock below threshold", status := .pending }

/-- A successful executor outcome for the restock action. -/
def sampleExecOk : ExecOk :=
  { tool := "update_inventory", actionType := "restock_item", result := "updated" }

/-- Approve, execute, then reject the already-executed row — every call
is accepted by the service. -/
def lifecycleBreakOps : List HitlOp :=
  [.update .approve none, .execute (.ok sampleExecOk), .update .reject none]

/-- A well-behaved operation sequence: approve the pending row, then
execute it. -/
def lifecycleGuardedOps : List HitlOp :=
  [.update .approve none, .execute (.ok sampleExecOk)]

/-- An approved pause-campaign action. -/
def approvedCampaignRow : Row :=
  { id := 7, agent_name := "marketing", action_type := "pause_campaign",
    payload := [("campaign_id", .vnum 2)], reasoning := "Zero conversions",
    status := .approved }

/-- An executor failure for it. -/
def campaignExecError : ExecError :=
  { actionType := "pause_campaign", reason := "MCP communication error: timeout",
    details := some "connect timeout after 15s" }

theorem runObserved_lifecycle (ops : List HitlOp) :
    ∀ (hist : List Status) (row : Row),
      LifeInv hist row.status →
      guardedFrom row ops = true →
      isLifecyclePrefix (runObserved hist row ops) = true := by
  induction ops with
  | nil =>
      intro hist row hinv _
      rcases hinv with ⟨h, _⟩ | ⟨h, _⟩ | ⟨h, _⟩ | ⟨h, _⟩ <;> subst h <;> rfl
  | cons op ops ih =>
      intro hist row hinv hg
      simp only [guardedFrom, Bool.and_eq_true] at hg
      obtain ⟨hop, hrest⟩ := hg
      obtain ⟨rid, ragent, raction, rpayload, rreason, rstatus⟩ := row
      simp only [runObserved]
      rcases hinv with ⟨h, hs⟩ | ⟨h, hs⟩ | ⟨h, hs⟩ | ⟨h, hs⟩ <;>
          subst h <;> simp only at hs <;> subst hs
      -- history [pending], status pending
      · cases op with
        | update d c =>
            cases d
            · exact ih _ _ (Or.inr (Or.inl ⟨rfl, rfl⟩)) hrest
            · exact ih _ _ (Or.inr (Or.inr (Or.inr ⟨rfl, rfl⟩))) hrest
        | execute e =>
            exact ih _ _ (Or.inl ⟨rfl, rfl⟩) hrest
        | approveExecute c e =>
            cases e
            · exact ih _ _ (Or.inr (Or.inl ⟨rfl, rfl⟩)) hrest
            · exact ih _ _ (Or.inr (Or.inr (Or.inl ⟨rfl, rfl⟩))) hrest
      -- history [pending, approved], status approved
      · cases op with
        | update d c => simp at hop
        | execute e =>
            cases e
            · exact ih _ _ (Or.inr (Or.inl ⟨rfl, rfl⟩)) hrest
            · exact ih _ _ (Or.inr (Or.inr (Or.inl ⟨rfl, rfl⟩))) hrest
        | approveExecute c e =>
            cases e
            · exact ih _ _ (Or.inr (Or.inl ⟨rfl, rfl⟩)) hrest
            · exact ih _ _ (Or.inr (Or.inr (Or.inl ⟨rfl, rfl⟩))) hrest
      -- history [pending, approved, executed], status executed
      · cases op with
        | update d c => simp at hop
        | execute e =>
            exact ih _ _ (Or.inr (Or.inr (Or.inl ⟨rfl, rfl⟩))) hrest
        | approveExecute c e => simp at hop
      -- history [pending, rejected], status rejected
      · cases op with
        | update d c => simp at hop
        | execute e =>
            exact ih _ _ (Or.inr (Or.inr (Or.inr ⟨rfl, rfl⟩))) hrest
        | approveExecute c e => simp at hop

/-- C1 (counterexample): the claimed lifecycle-prefix property fails on
the service as implemented.  Starting from a freshly created `pending`
row, the operation sequence approve, execute, reject is accepted in full
— `update_status` overwrites the status unconditionally — and the
observed status sequence `[pending, approved, executed, rejected]` is a
prefix of neither `[pending, approved, executed]` nor
`[pending, rejected]`; in particular the `executed` row was changed
again. -/
theorem pending_action_lifecycle_counterexample :
    sampleRestockRow.status = Status.pending ∧
    observedStatuses sampleRestockRow lifecycleBreakOps =
      [.pending, .approved, .executed, .rejected] ∧
    isLifecyclePrefix (observedStatuses sampleRestockRow lifecycleBreakOps) = false :=
  ⟨rfl, rfl, rfl⟩

/-- C1 (amended): for every pending-action row created with
`requires_approval = true` (status `pending`) and every sequence of
service operations in which `update_status` is only applied to a still-
`pending` row and `approve_and_execute` only to a `pending` or `approved`
row, the observed status sequence is a prefix of
`[pending, approved, executed]` or of `[pending, rejected]`; in
particular `execute_action` alone never moves a row out of `executed` or
`rejected`.  Without that usage discipline the property fails, because
`update_status` (and hence `approve_and_execute`) overwrites any current
status, including the terminal ones. -/
theorem pending_action_lifecycle_guarded (row : Row) (ops : List HitlOp)
    (hstart : row.status = Status.pending)
    (hguard : guardedFrom row ops = true) :
    isLifecyclePrefix (observedStatuses row ops) = true := by
  have h := runObserved_lifecycle ops [Status.pending] row (Or.inl ⟨rfl, hstart⟩) hguard
  unfold observedStatuses
  rw [hstart]
  exact h

/-- Witness for C1 (amended) at a concrete row and operation list. -/
theorem pending_action_lifecycle_guarded_witness :
    sampleRestockRow.status = Status.pending ∧
    guardedFrom sampleRestockRow lifecycleGuardedOps = true ∧
    isLifecyclePrefix (observedStatuses sampleRestockRow lifecycleGuardedOps) = true :=
  ⟨rfl, rfl,
   pending_action_lifecycle_guarded sampleRestockRow lifecycleGuardedOps rfl rfl⟩

/-- C6: if `execute_action` is called on a row whose stored status is
`approved` and the action executor raises (`ActionExecutionError`), the
row is left unchanged — its status remains `approved` — and the call
returns a structured failure payload with `success = false`, the
exception message, and `result = {"error": reason, "details": details}`,
so the operator may retry execution. -/
theorem execute_action_error_preserves_status (row : Row) (e : ExecError)
    (happr : row.status = Status.approved) :
    (executeAction row (.error e)).1 = row ∧
    (executeAction row (.error e)).2.success = false ∧
    (executeAction row (.error e)).2.message = e.message ∧
    (executeAction row (.error e)).2.result = some (.err e.reason e.details) ∧
    (executeAction row (.error e)).1.status = Status.approved := by
  simp [executeAction, happr]

/-- Witness for C6 at a concrete approved row and executor error. -/
theorem execute_action_error_preserves_status_witness :
    approvedCampaignRow.status = Status.approved ∧
    (executeAction approvedCampaignRow (.error campaignExecError)).2.success = false ∧
    (executeAction approvedCampaignRow (.error campaignExecError)).2.result =
      some (.err campaignExecError.reason campaignExecError.details) ∧
    (executeAction approvedCampaignRow (.error campaignExecError)).1 =
      approvedCampaignRow :=
  ⟨rfl,
   (execute_action_error_preserves_status approvedCampaignRow campaignExecError rfl).2.1,
   (execute_action_error_preserves_status approvedCampaignRow campaignExecError rfl).2.2.2.1,
   (execute_action_error_preserves_status approvedCampaignRow campaignExecError rfl).1⟩

/-! ### Dict lemmas for reasoning about `transform_payload` -/

theorem dictGet_insert_self (p : Payload) (k : String) (v : FVal) :
    dictGet (dictInsert p k v) k = some v := by
  induction p with
  | nil => simp [dictInsert, dictGet]
  | cons kv rest ih =>
      obtain ⟨k0, v0⟩ := kv
      by_cases h : k0 = k <;> simp [dictInsert, dictGet, h, ih]

theorem dictGet_insert_ne (p : Payload) (k k' : String) (v : FVal) (h : k' ≠ k) :
    dictGet (dictInsert p k v) k' = dictGet p k' := by
  induction p with
  | nil => simp [dictInsert, dictGet, Ne.symm h]
  | cons kv rest ih =>
      obtain ⟨k0, v0⟩ := kv
      by_cases h0 : k0 = k <;> by_cases h1 : k0 = k' <;>
        simp_all [dictInsert, dictGet]

theorem dictGet_erase_ne (p : Payload) (k k' : String) (h : k' ≠ k) :
    dictGet (dictErase p k) k' = dictGet p k' := by
  induction p with
  | nil => simp [dictErase]
  | cons kv rest ih =>
      obtain ⟨k0, v0⟩ := kv
      by_cases h0 : k0 = k <;> by_cases h1 : k0 = k' <;>
        simp_all [dictErase, dictGet]

theorem dictGet_eq_none_of_not_mem (p : Payload) (k : String)
    (h : k ∉ p.map Prod.fst) : dictGet p k = none := by
  induction p with
  | nil => rfl
  | cons kv rest ih =>
      obtain ⟨k0, v0⟩ := kv
      simp only [List.map_cons, List.mem_cons] at h
      push_neg at h
      simp [dictGet, Ne.symm h.1, ih h.2]

theorem dictGet_erase_self (p : Payload) (k : String)
    (hnd : (p.map Prod.fst).Nodup) : dictGet (dictErase p k) k = none := by
  induction p with
  | nil => rfl
  | cons kv rest ih =>
      obtain ⟨k0, v0⟩ := kv
      simp only [List.map_cons, List.nodup_cons] at hnd
      by_cases h0 : k0 = k
      · subst h0
        simpa [dictErase] using dictGet_eq_none_of_not_mem rest k0 hnd.1
      · simp [dictErase, dictGet, h0, ih hnd.2]

theorem dictContains_insert_ne (p : Payload) (k k' : String) (v : FVal)
    (h : k' ≠ k) : dictContains (dictInsert p k v) k' = dictContains p k' := by
  unfold dictContains
  rw [dictGet_insert_ne p k k' v h]

theorem dictContains_erase_ne (p : Payload) (k k' : String) (h : k' ≠ k) :
    dictContains (dictErase p k) k' = dictContains p k' := by
  unfold dictContains
  rw [dictGet_erase_ne p k k' h]

/-- C10 (counterexample): on a stored restock payload that already holds
a `quantity_change` entry, `transform_payload` does not rename
`quantity`: both original entries survive unchanged, so the claimed
unconditional rename (which would delete `quantity` and move its value
into `quantity_change`) does not happen. -/
theorem transform_payload_rename_counterexample :
    dictGet doubleQuantityPayload "quantity" = some (.vnum 5) ∧
    dictGet (transform_payload "restock_item" doubleQuantityPayload) "quantity" =
      some (.vnum 5) ∧
    dictGet (transform_payload "restock_item" doubleQuantityPayload) "quantity_change" =
      some (.vnum 2) ∧
    dictGet (transform_payload "restock_item" doubleQuantityPayload) "quantity" ≠ none := by
  refine ⟨rfl, rfl, rfl, ?_⟩
  intro h
  rw [show dictGet (transform_payload "restock_item" doubleQuantityPayload) "quantity" =
        some (FVal.vnum 5) from rfl] at h
  exact Option.noConfusion h

/-- C10 (amended): `transform_payload` rewrites the stored payload as
follows.  For `restock_item`, when `quantity` is present *and*
`quantity_change` is absent, `quantity` is renamed to `quantity_change`,
and a default `reason` is inserted when absent.  For `pause_campaign` /
`resume_campaign` a `status` of `"paused"` / `"active"` is injected and —
beyond what the claim lists — a default `reason` is also inserted when
absent.  Every other action type passes through unchanged. -/
theorem transform_payload_amended :
    (∀ (p : Payload) (q : FVal), (p.map Prod.fst).Nodup →
       dictGet p "quantity" = some q →
       dictContains p "quantity_change" = false →
       dictGet (transform_payload "restock_item" p) "quantity" = none ∧
       dictGet (transform_payload "restock_item" p) "quantity_change" = some q ∧
       (dictContains p "reason" = false →
         dictGet (transform_payload "restock_item" p) "reason" =
           some (.vstr "Restock requested by agent"))) ∧
    (∀ p : Payload,
       dictGet (transform_payload "pause_campaign" p) "status" =
         some (.vstr "paused") ∧
       (dictContains p "reason" = false →
         dictGet (transform_payload "pause_campaign" p) "reason" =
           some (.vstr "Campaign paused by agent recommendation"))) ∧
    (∀ p : Payload,
       dictGet (transform_payload "resume_campaign" p) "status" =
         some (.vstr "active") ∧
       (dictContains p "reason" = false →
         dictGet (transform_payload "resume_campaign" p) "reason" =
           some (.vstr "Campaign resumed by agent recommendation"))) ∧
    (∀ (ty : String) (p : Payload), ty ≠ "restock_item" → ty ≠ "pause_campaign" →
       ty ≠ "resume_campaign" → transform_payload ty p = p) := by
  have hqcq : ("quantity" : String) ≠ "quantity_change" := by decide
  have hrqc : ("reason" : String) ≠ "quantity_change" := by decide
  have hrq : ("reason" : String) ≠ "quantity" := by decide
  have hsr : ("status" : String) ≠ "reason" := by decide
  refine ⟨?_, ?_, ?_, ?_⟩
  · intro p q hnd hq hqc
    have hcq : dictContains p "quantity" = true := by
      unfold dictContains; rw [hq]; rfl
    have hX : transform_payload "restock_item" p =
        (if !(dictContains (dictInsert (dictErase p "quantity") "quantity_change" q)
              "reason") then
          dictInsert (dictInsert (dictErase p "quantity") "quantity_change" q)
            "reason" (.vstr "Restock requested by agent")
        else dictInsert (dictErase p "quantity") "quantity_change" q) := by
      unfold transform_payload
      rw [if_pos rfl, hcq, hqc, hq]
      simp
    have hcr : dictContains (dictInsert (dictErase p "quantity") "quantity_change" q)
        "reason" = dictContains p "reason" := by
      rw [dictContains_insert_ne _ _ _ _ hrqc, dictContains_erase_ne _ _ _ hrq]
    cases hrb : dictContains p "reason" with
    | true =>
        rw [hX]
        simp only [hcr, hrb, Bool.not_true, Bool.false_eq_true, if_false]
        refine ⟨?_, ?_, ?_⟩
        · rw [dictGet_insert_ne _ _ _ _ hqcq]
          exact dictGet_erase_self p "quantity" hnd
        · exact dictGet_insert_self _ _ _
        · intro hr'
          exact absurd hr' (by decide)
    | false =>
        rw [hX]
        simp only [hcr, hrb, Bool.not_false, if_true]
        refine ⟨?_, ?_, ?_⟩
        · rw [dictGet_insert_ne _ _ _ _ (Ne.symm hrq), dictGet_insert_ne _ _ _ _ hqcq]
          exact dictGet_erase_self p "quantity" hnd
        · rw [dictGet_insert_ne _ _ _ _ (Ne.symm hrqc)]
          exact dictGet_insert_self _ _ _
        · intro _
          exact dictGet_insert_self _ _ _
  · intro p
    have hX : transform_payload "pause_campaign" p =
        (if !(dictContains (dictInsert p "status" (.vstr "paused")) "reason") then
          dictInsert (dictInsert p "status" (.vstr "paused")) "reason"
            (.vstr "Campaign paused by agent recommendation")
        else dictInsert p "status" (.vstr "paused")) := by
      unfold transform_payload
      rw [if_neg (by decide), if_pos rfl]
    have hcr : dictContains (dictInsert p "status" (.vstr "paused")) "reason" =
        dictContains p "reason" := dictContains_insert_ne _ _ _ _ (Ne.symm hsr)
    constructor
    · cases hrb : dictContains p "reason" with
      | true =>
          rw [hX]
          simp only [hcr, hrb, Bool.not_true, Bool.false_eq_true, if_false]
          exact dictGet_insert_self _ _ _
      | false =>
          rw [hX]
          simp only [hcr, hrb, Bool.not_false, if_true]
          rw [dictGet_insert_ne _ _ _ _ hsr]
          exact dictGet_insert_self _ _ _
    · intro hr
      rw [hX]
      simp only [hcr, hr, Bool.not_false, if_true]
      exact dictGet_insert_self _ _ _
  · intro p
    have hX : transform_payload "resume_campaign" p =
        (if !(dictContains (dictInsert p "status" (.vstr "active")) "reason") then
          dictInsert (dictInsert p "status" (.vstr "active")) "reason"
            (.vstr "Campaign resumed by agent recommendation")
        else dictInsert p "status" (.vstr "active")) := by
      unfold transform_payload
      rw [if_neg (by decide), if_neg (by decide), if_pos rfl]
    have hcr : dictContains (dictInsert p "status" (.vstr "active")) "reason" =
        dictContains p "reason" := dictContains_insert_ne _ _ _ _ (Ne.symm hsr)
    constructor
    · cases hrb : dictContains p "reason" with
      | true =>
          rw [hX]
          simp only [hcr, hrb, Bool.not_true, Bool.false_eq_true, if_false]
          exact dictGet_insert_self _ _ _
      | false =>
          rw [hX]
          simp only [hcr, hrb, Bool.not_false, if_true]
          rw [dictGet_insert_ne _ _ _ _ hsr]
          exact dictGet_insert_self _ _ _
    · intro hr
      rw [hX]
      simp only [hcr, hr, Bool.not_false, if_true]
      exact dictGet_insert_self _ _ _
  · intro ty p h1 h2 h3
    unfold transform_payload
    rw [if_neg h1, if_neg h2, if_neg h3]

/-- Witness for C10 (amended) at a concrete restock payload. -/
theorem transform_payload_amended_witness :
    (renamePayload.map Prod.fst).Nodup ∧
    dictGet renamePayload "quantity" = some (.vnum 9) ∧
    dictContains renamePayload "quantity_change" = false ∧
    dictGet (transform_payload "restock_item" renamePayload) "quantity" = none ∧
    dictGet (transform_payload "restock_item" renamePayload) "quantity_change" =
      some (.vnum 9) :=
  ⟨by decide, rfl, rfl,
   (transform_payload_amended.1 renamePayload (.vnum 9) (by decide) rfl rfl).1,
   (transform_payload_amended.1 renamePayload (.vnum 9) (by decide) rfl rfl).2.1⟩

/-- C9 (counterexample): a 200 response whose body is malformed JSON
makes `MCPClient.invoke` raise the generic `MCPError`, not the typed
`ToolInvocationError` the claim requires for malformed JSON. -/
theorem invoke_malformed_json_counterexample :
    MCPClient.invoke "get_sales_summary" (.response malformedResponse) =
      .mcpError "Invalid JSON response from MCP tool get_sales_summary" ∧
    (MCPClient.invoke "get_sales_summary"
      (.response malformedResponse)).isToolInvocationError = false :=
  ⟨rfl, rfl⟩

/-- C9 (amended): `MCPClient.invoke` raises `ToolInvocationError`
(carrying the tool name, status and body) exactly for `status_code >=
400` — not for every non-2xx response: a 3xx response with a parseable
body returns normally.  A below-400 response whose body is malformed
JSON raises the generic `MCPError`.  Any other I/O fault (an `httpx`
exception) propagates uncaught rather than being wrapped in `MCPError`. -/
theorem invoke_error_taxonomy :
    (∀ (tool : String) (r : HttpResponse), r.status_code ≥ 400 →
       MCPClient.invoke tool (.response r) =
         .toolInvocationError tool r.status_code r.text) ∧
    (∀ (tool : String) (r : HttpResponse), r.status_code < 400 → r.jsonBody = none →
       MCPClient.invoke tool (.response r) =
         .mcpError ("Invalid JSON response from MCP tool " ++ tool)) ∧
    (∀ (tool : String) (r : HttpResponse) (v : FVal),
       r.status_code < 400 → r.jsonBody = some v →
       MCPClient.invoke tool (.response r) = .ok v) ∧
    (∀ (tool msg : String),
       MCPClient.invoke tool (.ioFault msg) = .transportRaised msg) := by
  refine ⟨?_, ?_, ?_, fun _ _ => rfl⟩
  · intro tool r h
    simp only [MCPClient.invoke]
    rw [if_pos h]
  · intro tool r h hb
    simp only [MCPClient.invoke]
    rw [if_neg (by omega), hb]
  · intro tool r v h hb
    simp only [MCPClient.invoke]
    rw [if_neg (by omega), hb]

/-- Witness for C9 (amended): a 401 raises `ToolInvocationError`, a 200
with a malformed body raises `MCPError`. -/
theorem invoke_error_taxonomy_witness :
    MCPClient.invoke "execute_sql_query" (.response unauthorizedResponse) =
      .toolInvocationError "execute_sql_query" 401 "unauthorized" ∧
    MCPClient.invoke "query_vector_memory" (.response malformedResponse) =
      .mcpError ("Invalid JSON response from MCP tool " ++ "query_vector_memory") :=
  ⟨invoke_error_taxonomy.1 "execute_sql_query" unauthorizedResponse (by decide),
   invoke_error_taxonomy.2.1 "query_vector_memory" malformedResponse (by decide) rfl⟩

/-- C3 (counterexample): the query "Compare yesterday sales to last
week" matches the spec's "compare" trigger, yet the sales agent's run on
the corresponding task answers it itself — it invokes the
`compare_sales_periods` tool and returns status `success`, not
`cannot_handle`. -/
theorem sales_compare_counterexample :
    salesTriggerMatch compareQuery = true ∧
    (SalesAgent.run compareTaskParams (.ok [])).1.status = "success" ∧
    (SalesAgent.run compareTaskParams (.ok [])).2 = "compare_sales_periods" ∧
    ("success" : String) ≠ "cannot_handle" := by
  refine ⟨by decide, rfl, rfl, by decide⟩

/-- C3 (amended): the sales agent never returns `cannot_handle`.  For
every task parameter dict and tool outcome, `SalesAgent.run` dispatches
on `parameters.mode` (trends, top_products, compare_periods, regional,
channel, product_contribution), invokes the mode's tool, and returns
status `success` or `failure`; no query-pattern check exists, and
`cannot_handle` is not even a member of the `AgentStatus` literal type. -/
theorem sales_agent_no_cannot_handle :
    ∀ (params : Payload) (tool : ToolOutcome),
      ((SalesAgent.run params tool).1.status = "success" ∨
       (SalesAgent.run params tool).1.status = "failure") ∧
      (SalesAgent.run params tool).1.status ≠ "cannot_handle" ∧
      "cannot_handle" ∉ agentStatusValues := by
  intro params tool
  have hmain : (SalesAgent.run params tool).1.status = "success" ∨
      (SalesAgent.run params tool).1.status = "failure" := by
    unfold SalesAgent.run
    split_ifs <;> cases tool <;>
      first
        | (left; rfl)
        | (right; rfl)
  refine ⟨hmain, ?_, by decide⟩
  rcases hmain with h | h <;> rw [h] <;> decide

/-- C4 (counterexample): with a battle plan holding one sales task and
an agent behaviour whose first (and only) attempt returns `needs_retry`,
the dispatcher performs exactly one `agent.run` invocation — not the two
attempts the claim requires for a `needs_retry` result — and no sleep
occurs because no retry loop exists. -/
theorem dispatcher_retry_counterexample :
    (BaseAgent.failure "transient tool error" true).status = "needs_retry" ∧
    (runTasksNode dispatcherRegistry needsRetryBehaviour dispatchState).2 = ["sales"] ∧
    ((runTasksNode dispatcherRegistry needsRetryBehaviour dispatchState).2.count "sales")
      = 1 ∧
    (1 : Nat) ≠ 2 := by
  refine ⟨rfl, rfl, rfl, by decide⟩

/-- C4 (amended): for every task of the battle plan whose agent is
registered, the dispatcher makes exactly one `agent.run` attempt: the
set of invocations does not depend on the agents' outcomes (so neither a
`needs_retry` result nor an exception triggers a second attempt), and a
`needs_retry` result is folded exactly like a `failure` — a system
warning is appended.  There is no sleep because there is no retry
loop. -/
theorem dispatcher_single_attempt :
    (∀ (registry : List String) (behave1 behave2 : AgentTaskT → RunOutcome) (s : GState),
       (runTasksNode registry behave1 s).2 = (runTasksNode registry behave2 s).2) ∧
    (∀ (registry : List String) (behave : AgentTaskT → RunOutcome) (s : GState),
       (runTasksNode registry behave s).2 =
         (s.battle_plan.filter (fun t => registry.contains t.agent)).map
           (fun t => t.agent)) ∧
    (∀ (s : GState) (name : String) (r : AgentResultS), r.status = "needs_retry" →
       (incorporateAgentResult s name r).system_warnings =
         s.system_warnings ++ [name ++ " agent failed: " ++
           (match r.errors with | some e => e | none => "None")]) := by
  refine ⟨fun _ _ _ _ => rfl, fun _ _ _ => rfl, ?_⟩
  intro s name r h
  unfold incorporateAgentResult
  rw [h]
  rw [if_neg (by decide), if_neg (by decide)]

/-- Witness for C4 (amended): folding a `needs_retry` result appends the
failure warning. -/
theorem dispatcher_single_attempt_witness :
    (BaseAgent.failure "transient tool error" true).status = "needs_retry" ∧
    (incorporateAgentResult dispatchState "sales"
        (BaseAgent.failure "transient tool error" true)).system_warnings =
      dispatchState.system_warnings ++
        ["sales" ++ " agent failed: " ++ "transient tool error"] := by
  refine ⟨rfl, ?_⟩
  exact dispatcher_single_attempt.2.2 dispatchState "sales"
    (BaseAgent.failure "transient tool error" true) rfl

/-- C2 (counterexample): a paused run is resumed with
`approved_action_ids = [1]` and `rejected_action_ids = []`, and the
store holds action 1 with status `approved`, so the claim demands that
the engine attempt execution exactly of action 1 — but the engine's
executor-invocation list during resume is empty: `_execute_approved_node`
performs no executor call at all. -/
theorem resume_execution_counterexample :
    claimedExecutions [approvedStoreRow] [1] = [1] ∧
    (graphResume (.found pausedCheckpoint) (some [1]) (some []) (.ok 1)).toOption.map
      (fun p => p.2) = some [] ∧
    ([] : List Int) ≠ [1] := by
  refine ⟨rfl, rfl, by decide⟩

/-- C2 (amended): resuming overwrites the checkpointed state's HITL
fields (`hitl_approved_ids := A`, `hitl_rejected_ids := R`,
`hitl_resumed := true`, `hitl_wait := false`) and, when A is non-empty,
routes through `_execute_approved_node` — but the engine invokes no
action executor during resume for any checkpoint and any id lists; the
node only marks the approved ids as processed and clears them, actual
execution happening only through `POST /actions/execute`.  Moreover the
resume router passes the request object positionally into the
`thread_id` parameter and never forwards the id lists; the request
object is unhashable, so the `MemorySaver` dict lookup raises
`TypeError`, which the router's `ValueError` handler misses — a resume
through `POST /query/resume` always fails with the 500-mapped
`"Resume failure"` error (never the 404 path, and never executing
anything). -/
theorem resume_no_executor_invocation :
    (∀ (st : GState) (save : Except String Int), (resumeFromGate st save).2 = []) ∧
    (∀ (cp : GState) (a r : Option (List Int)) (save : Except String Int),
       graphResume (.found cp) a r save =
         .ok (resumeFromGate (graphResumeState cp a r) save)) ∧
    (∀ (cp : GState) (a r : Option (List Int)),
       (graphResumeState cp a r).hitl_approved_ids = a.getD [] ∧
       (graphResumeState cp a r).hitl_rejected_ids = r.getD [] ∧
       (graphResumeState cp a r).hitl_resumed = true ∧
       (graphResumeState cp a r).hitl_wait = false) ∧
    (∀ (store : CheckpointStore) (req : ResumeQueryRequest)
       (save : Except String Int),
       routerResumeQuery store req save =
         .http500 ("Resume failure: " ++ "unhashable type: ResumeQueryRequest")) := by
  refine ⟨?_, fun _ _ _ _ => rfl, fun _ _ _ => ⟨rfl, rfl, rfl, rfl⟩, fun _ _ _ => rfl⟩
  intro st save
  unfold resumeFromGate
  cases h : routeAfterHitl (hitlGateNode st) <;> simp only [h] <;>
    first
      | rfl
      | (by_cases he : (hitlGateNode st).hitl_approved_ids.isEmpty <;>
           simp [executeApprovedNode, he])

/-- C8 (counterexample): with a diagnosis of confidence 0.8 (> 0.7) the
single incident handed to `save_incident` has `outcome = None`, not
`"analysis_shared"` or `"pending_approval"` as the claim states. -/
theorem record_memory_outcome_counterexample :
    (0.7 : ℚ) < confidentDiagnosis.confidence ∧
    (recordMemoryNode confidentRunState (.ok 1)).2.map (fun i => i.outcome) =
      [none] ∧
    ¬ ((none : Option String) = some "analysis_shared" ∨
       (none : Option String) = some "pending_approval") := by
  have hd : confidentRunState.diagnosis = some confidentDiagnosis := rfl
  have hconf : confidentDiagnosis.confidence > (0.7 : ℚ) := by
    norm_num [confidentDiagnosis]
  refine ⟨hconf, ?_, by simp⟩
  unfold recordMemoryNode
  rw [hd]
  simp only [if_pos hconf]
  rfl

/-- C8 (amended): when a run's diagnosis has confidence strictly above
0.7, exactly one `MemoryIncident` is handed to `save_incident`, with
`incident_summary` equal to the user query, `root_cause` the narrative
truncated to 500 characters (`None` when the narrative is empty),
`action_taken = None` and — contrary to the claim — `outcome = None`.
The node returns the state unchanged for every save outcome, so a
failing append never fails the run. -/
theorem record_memory_amended :
    (∀ (s : GState) (d : DiagnosisSummary) (save : Except String Int),
       s.diagnosis = some d → d.confidence > (0.7 : ℚ) →
       (recordMemoryNode s save).1 = s ∧
       (recordMemoryNode s save).2 =
         [{ incident_summary := s.user_query,
            root_cause :=
              if d.narrative ≠ "" then some (d.narrative.take 500) else none,
            action_taken := none, outcome := none }]) ∧
    (∀ (s : GState) (save : Except String Int), (recordMemoryNode s save).1 = s) := by
  constructor
  · intro s d save hd hconf
    unfold recordMemoryNode
    rw [hd]
    simp only [if_pos hconf]
    cases save <;> exact ⟨rfl, rfl⟩
  · intro s save
    unfold recordMemoryNode
    cases hd : s.diagnosis with
    | none => rfl
    | some d =>
        by_cases hc : d.confidence > (0.7 : ℚ)
        · simp only [if_pos hc]
          cases save <;> rfl
        · simp only [if_neg hc]

/-- Witness for C8 (amended) at a concrete state, with a failing save. -/
theorem record_memory_amended_witness :
    confidentRunState.diagnosis = some confidentDiagnosis ∧
    confidentDiagnosis.confidence > (0.7 : ℚ) ∧
    (recordMemoryNode confidentRunState (.error "vector store down")).1 =
      confidentRunState ∧
    (recordMemoryNode confidentRunState (.error "vector store down")).2 =
      [{ incident_summary := confidentRunState.user_query,
         root_cause :=
           if confidentDiagnosis.narrative ≠ "" then
             some (confidentDiagnosis.narrative.take 500)
           else none,
         action_taken := none, outcome := none }] := by
  refine ⟨rfl, by norm_num [confidentDiagnosis], ?_, ?_⟩
  · exact (record_memory_amended.1 confidentRunState confidentDiagnosis
      (.error "vector store down") rfl (by norm_num [confidentDiagnosis])).1
  · exact (record_memory_amended.1 confidentRunState confidentDiagnosis
      (.error "vector store down") rfl (by norm_num [confidentDiagnosis])).2

/-- C7: for every synthesis, `diagnosis.confidence` equals
`min(0.95, 0.5 + 0.1 * n)` where `n` is the total number of flattened
agent insights across all agents, and hence always lies in `[0, 0.95]`.
(Real arithmetic is modelled over `ℚ`.) -/
theorem synthesis_confidence_formula :
    ∀ (s : GState) (llmAnswer : Option String),
      ∃ d : DiagnosisSummary,
        (synthesizeNode s llmAnswer).diagnosis = some d ∧
        d.confidence = min (0.95 : ℚ)
          (0.5 + 0.1 *
            ((((s.agent_insights.map (fun kv => kv.2.length)).sum : ℕ) : ℚ))) ∧
        0 ≤ d.confidence ∧ d.confidence ≤ (0.95 : ℚ) := by
  intro s llm
  have hlen : (flattenInsights s.agent_insights).length =
      (s.agent_insights.map (fun kv => kv.2.length)).sum := by
    unfold flattenInsights
    rw [List.length_flatMap]
    apply congrArg
    apply List.map_congr_left
    intro kv _
    simp
  refine ⟨_, rfl, ?_, ?_, ?_⟩
  · show min (0.95 : ℚ)
        (0.5 + 0.1 * ((flattenInsights s.agent_insights).length : ℚ)) = _
    rw [hlen]
  · show (0:ℚ) ≤ min (0.95 : ℚ)
        (0.5 + 0.1 * ((flattenInsights s.agent_insights).length : ℚ))
    refine le_min (by norm_num) (by positivity)
  · show min (0.95 : ℚ)
        (0.5 + 0.1 * ((flattenInsights s.agent_insights).length : ℚ)) ≤ (0.95 : ℚ)
    exact min_le_left _ _

/-! ### Projection lemmas for the re-plan bound -/

theorem evaluateResults_count (s : GState) :
    (evaluateResults s).replan_count = s.replan_count ∧
    (evaluateResults s).max_replans = s.max_replans := by
  unfold evaluateResults
  split_ifs <;> exact ⟨rfl, rfl⟩

theorem evaluateResults_needs_replan_lt (s : GState)
    (h : (evaluateResults s).needs_replan = true) :
    s.replan_count < s.max_replans := by
  unfold evaluateResults at h
  split_ifs at h with h1 h2 h3 h4 h5 h6 <;>
    first
      | (exact Bool.noConfusion h)
      | omega

theorem incorporateAgentResult_count (s : GState) (n : String) (r : AgentResultS) :
    (incorporateAgentResult s n r).replan_count = s.replan_count ∧
    (incorporateAgentResult s n r).max_replans = s.max_replans := by
  unfold incorporateAgentResult
  split_ifs <;> exact ⟨rfl, rfl⟩

theorem foldResults_count
    (l : List (String × Option AgentResultS × Option String)) :
    ∀ s : GState, (foldResults s l).replan_count = s.replan_count ∧
      (foldResults s l).max_replans = s.max_replans := by
  induction l with
  | nil => exact fun s => ⟨rfl, rfl⟩
  | cons hd tl ih =>
      intro s
      obtain ⟨name, or, oe⟩ := hd
      cases or with
      | some r =>
          have h1 := incorporateAgentResult_count s name r
          have h2 := ih (incorporateAgentResult s name r)
          exact ⟨h2.1.trans h1.1, h2.2.trans h1.2⟩
      | none =>
          cases oe with
          | some e => exact ih _
          | none => exact ih s

theorem runTasksNode_count (registry : List String)
    (behave : AgentTaskT → RunOutcome) (s : GState) :
    (runTasksNode registry behave s).1.replan_count = s.replan_count ∧
    (runTasksNode registry behave s).1.max_replans = s.max_replans :=
  foldResults_count _ s

theorem supervisorReplan_count (metadataNames : List String) (s : GState)
    (llmTasks : Option (List AgentTaskT)) :
    (supervisorReplan metadataNames s llmTasks).1.replan_count =
      s.replan_count + 1 ∧
    (supervisorReplan metadataNames s llmTasks).1.max_replans = s.max_replans := by
  cases llmTasks <;> simp only [supervisorReplan] <;> split_ifs <;>
    exact ⟨rfl, rfl⟩

theorem graphReplanNode_count (metadataNames : List String) (s : GState)
    (llmTasks : Option (List AgentTaskT)) :
    (graphReplanNode metadataNames s llmTasks).replan_count = s.replan_count + 1 ∧
    (graphReplanNode metadataNames s llmTasks).max_replans = s.max_replans := by
  have h := supervisorReplan_count metadataNames s llmTasks
  by_cases hp : (supervisorReplan metadataNames s llmTasks).2.isEmpty <;>
    simp [graphReplanNode, hp, h.1, h.2]

theorem executeApprovedNode_count (s : GState) :
    (executeApprovedNode s).1.replan_count = s.replan_count ∧
    (executeApprovedNode s).1.max_replans = s.max_replans := by
  by_cases hp : s.hitl_approved_ids.isEmpty <;>
    simp [executeApprovedNode, hp]

theorem recordMemoryNode_state (s : GState) (saveOutcome : Except String Int) :
    (recordMemoryNode s saveOutcome).1 = s := by
  unfold recordMemoryNode
  cases s.diagnosis with
  | none => rfl
  | some d =>
      by_cases hc : d.confidence > (0.7 : ℚ)
      · simp only [if_pos hc]
        cases saveOutcome <;> rfl
      · simp only [if_neg hc]

/-- The configuration invariant behind the re-plan bound. -/
def CfgInv (c : Config) : Prop :=
  c.state.replan_count ≤ c.state.max_replans ∧
  (c.node = Node.replan → c.state.replan_count < c.state.max_replans)

theorem gstep_mono {c c' : Config} (h : GStep c c') :
    c.state.replan_count ≤ c'.state.replan_count := by
  cases h with
  | planStep s tasks => exact Nat.le.refl
  | runTasksStep registry behave s =>
      exact Nat.le_of_eq (runTasksNode_count registry behave s).1.symm
  | evalReplan s h => exact Nat.le_of_eq (evaluateResults_count s).1.symm
  | evalSynth s h => exact Nat.le_of_eq (evaluateResults_count s).1.symm
  | replanStep names s llm =>
      show s.replan_count ≤ (graphReplanNode names s llm).replan_count
      rw [(graphReplanNode_count names s llm).1]
      omega
  | synthStep s llm => exact Nat.le.refl
  | hitlWait s h => exact Nat.le.refl
  | hitlExecute s h => exact Nat.le.refl
  | hitlSkip s h => exact Nat.le.refl
  | executeStep s => exact Nat.le_of_eq (executeApprovedNode_count s).1.symm
  | recordStepG s save =>
      exact Nat.le_of_eq
        (congrArg GState.replan_count (recordMemoryNode_state s save)).symm

theorem gstep_inv {c c' : Config} (h : GStep c c') (hc : CfgInv c) : CfgInv c' := by
  obtain ⟨hle, hlt⟩ := hc
  cases h with
  | planStep s tasks => exact ⟨hle, fun hn => Node.noConfusion hn⟩
  | runTasksStep registry behave s =>
      have hp := runTasksNode_count registry behave s
      exact ⟨by rw [hp.1, hp.2]; exact hle, fun hn => Node.noConfusion hn⟩
  | evalReplan s h =>
      have hp := evaluateResults_count s
      have hl := evaluateResults_needs_replan_lt s h
      exact ⟨by rw [hp.1, hp.2]; omega, fun _ => by rw [hp.1, hp.2]; exact hl⟩
  | evalSynth s h =>
      have hp := evaluateResults_count s
      exact ⟨by rw [hp.1, hp.2]; exact hle, fun hn => Node.noConfusion hn⟩
  | replanStep names s llm =>
      have hp := graphReplanNode_count names s llm
      have hl : s.replan_count < s.max_replans := hlt rfl
      refine ⟨?_, fun hn => Node.noConfusion hn⟩
      show (graphReplanNode names s llm).replan_count ≤
        (graphReplanNode names s llm).max_replans
      rw [hp.1, hp.2]
      omega
  | synthStep s llm => exact ⟨hle, fun hn => Node.noConfusion hn⟩
  | hitlWait s h => exact ⟨hle, fun hn => Node.noConfusion hn⟩
  | hitlExecute s h => exact ⟨hle, fun hn => Node.noConfusion hn⟩
  | hitlSkip s h => exact ⟨hle, fun hn => Node.noConfusion hn⟩
  | executeStep s =>
      have hp := executeApprovedNode_count s
      exact ⟨by rw [hp.1, hp.2]; exact hle, fun hn => Node.noConfusion hn⟩
  | recordStepG s save =>
      have hp := recordMemoryNode_state s save
      exact ⟨by rw [hp]; exact hle, fun hn => Node.noConfusion hn⟩

theorem reachable_cfgInv : ∀ c : Config, ReachableCfg c → CfgInv c := by
  intro c h
  induction h with
  | init q t => exact ⟨Nat.zero_le _, fun hn => Node.noConfusion hn⟩
  | step hr hs ih => exact gstep_inv hs ih

/-- C5: `replan_count` starts at 0 with `max_replans` defaulted to 2, is
monotonically non-decreasing across every graph step, the evaluator
requests a re-plan only while `replan_count` is strictly below
`max_replans`, and in every reachable configuration `replan_count`
never exceeds `max_replans`. -/
theorem replan_bounded_invariant :
    (∀ q t : String, (initializeState q t).replan_count = 0 ∧
       (initializeState q t).max_replans = 2) ∧
    (∀ s : GState, (evaluateResults s).needs_replan = true →
       s.replan_count < s.max_replans) ∧
    (∀ c c' : Config, GStep c c' →
       c.state.replan_count ≤ c'.state.replan_count) ∧
    (∀ c : Config, ReachableCfg c →
       c.state.replan_count ≤ c.state.max_replans) :=
  ⟨fun _ _ => ⟨rfl, rfl⟩,
   evaluateResults_needs_replan_lt,
   fun _ _ h => gstep_mono h,
   fun c h => (reachable_cfgInv c h).1⟩

/-- Witness for C5 at a concrete run: an initial state with no findings
makes the evaluator request a re-plan, and the theorem yields
`0 < 2` and the bound at the initial configuration. -/
theorem replan_bounded_invariant_witness :
    (evaluateResults (initializeState "Why did sales drop?" "w5")).needs_replan
      = true ∧
    (initializeState "Why did sales drop?" "w5").replan_count <
      (initializeState "Why did sales drop?" "w5").max_replans ∧
    (initializeState "Why did sales drop?" "w5").replan_count ≤
      (initializeState "Why did sales drop?" "w5").max_replans :=
  ⟨rfl,
   replan_bounded_invariant.2.1 (initializeState "Why did sales drop?" "w5") rfl,
   replan_bounded_invariant.2.2.2
     ⟨.plan, initializeState "Why did sales drop?" "w5"⟩
     (ReachableCfg.init "Why did sales drop?" "w5")⟩

end OpsBrain
